import Mathlib

/-!
Verification of the anki-mcp-server source (src/index.ts) against its
natural-language specification.

Strings are modelled as `List Char`.  The regex pipeline of
`cleanWithRegex` is embedded as character-list scanners; each global
regex replacement becomes a left-to-right scan that, at every position,
tries the (deterministic) match of the pattern and either consumes it or
moves one character forward — exactly the semantics of
`String.prototype.replace` with a `g`-flagged regex whose pattern cannot
match the empty string.  The scanners carry a fuel argument initialised
to the input length; every step consumes one unit of fuel and at least
one input character, so the fuel never runs out and the definitions stay
structurally recursive (hence kernel-computable).
-/

/-- Convert a Lean string literal to the `List Char` representation used
throughout this development. -/
def s2l (s : String) : List Char := s.data

/-- `Array.prototype.join(sep)` on a list of already-rendered elements. -/
def joinSep (sep : List Char) : List (List Char) → List Char
  | [] => []
  | [x] => x
  | x :: xs => x ++ sep ++ joinSep sep xs

/-- Decimal rendering of an integer, as JS renders an integral number. -/
def intStr (n : Int) : List Char := n.repr.data

/-- Decimal rendering of a natural number. -/
def natStr (n : Nat) : List Char := (Nat.repr n).data

/-- The character class trimmed by `String.prototype.trim` (ECMAScript
WhiteSpace and LineTerminator code points). -/
def isJsWS (c : Char) : Bool :=
  c == ' ' || c == '\t' || c == '\n' || c == '\r' || c == '\x0b' || c == '\x0c' ||
  c == '\u00A0' || c == '\u1680' || ('\u2000' ≤ c && c ≤ '\u200A') ||
  c == '\u2028' || c == '\u2029' || c == '\u202F' || c == '\u205F' ||
  c == '\u3000' || c == '\uFEFF'

/-- Leading-whitespace removal (first half of `trim()`). -/
def trimLeft (l : List Char) : List Char := l.dropWhile isJsWS

/-- Trailing-whitespace removal (second half of `trim()`). -/
def trimRight (l : List Char) : List Char := (l.reverse.dropWhile isJsWS).reverse

/-- `String.prototype.trim`. -/
def trimJS (l : List Char) : List Char := trimRight (trimLeft l)

/-- `String.prototype.split("\n")`: the list of newline-separated
segments; always non-empty, and `"".split("\n") = [""]`. -/
def splitOnNl : List Char → List (List Char)
  | [] => [[]]
  | c :: rest =>
    if c = '\n' then [] :: splitOnNl rest
    else (splitOnNl rest).modifyHead (c :: ·)

/-- `Array.prototype.join("\n")`. -/
def joinNl : List (List Char) → List Char
  | [] => []
  | [l] => l
  | l :: ls => l ++ '\n' :: joinNl ls

/-- The final stage of `cleanWithRegex`
(`.split("\n").map(trim).filter(length > 0).join("\n")`). -/
def reflow (s : List Char) : List Char :=
  joinNl (((splitOnNl s).map trimJS).filter (fun l => decide (0 < l.length)))

/-- Does `pat` occur literally at the head of the second list? -/
def leadsWith : List Char → List Char → Bool
  | [], _ => true
  | _ :: _, [] => false
  | p :: ps, c :: cs => p == c && leadsWith ps cs

/-- Case-insensitive variant (the pattern is given lowercase). -/
def leadsWithCI : List Char → List Char → Bool
  | [], _ => true
  | _ :: _, [] => false
  | p :: ps, c :: cs => c.toLower == p && leadsWithCI ps cs

/-- `[^>]*>` : skip to the first `>` and return the suffix after it. -/
def scanToGt : List Char → Option (List Char)
  | [] => none
  | c :: rest => if c = '>' then some rest else scanToGt rest

/-- `[^\]]*\]` : skip to the first `]` and return the suffix after it. -/
def scanToBr : List Char → Option (List Char)
  | [] => none
  | c :: rest => if c = ']' then some rest else scanToBr rest

/-- Find the first case-insensitive occurrence of `</style>` and return
the suffix after it (the lazy `[\s\S]*?<\/style>` part of the style
regex). -/
def dropCloseStyle : List Char → Option (List Char)
  | [] => none
  | c :: rest =>
    if leadsWithCI (s2l "</style>") (c :: rest) then some ((c :: rest).drop 8)
    else dropCloseStyle rest

/-- Given the characters after a `<`, match the rest of
`<style[^>]*>[\s\S]*?<\/style>` (case-insensitively) and return the
suffix after the whole match. -/
def styleRest (l : List Char) : Option (List Char) :=
  if leadsWithCI (s2l "style") l then
    match scanToGt (l.drop 5) with
    | some r => dropCloseStyle r
    | none => none
  else none

/-- Given the characters after a `<`, match the rest of `<div[^>]*>`. -/
def divRest (l : List Char) : Option (List Char) :=
  if leadsWith (s2l "div") l then scanToGt (l.drop 3) else none

/-- Given the characters after a `<`, match the rest of `<[^>]+>`
(at least one non-`>` character before the closing `>`). -/
def tagRest : List Char → Option (List Char)
  | [] => none
  | c :: rest => if c = '>' then none else scanToGt rest

/-- Given the characters after a `[`, match the rest of
`\[anki:play:[^\]]+\]`. -/
def ankiRest (l : List Char) : Option (List Char) :=
  if leadsWith (s2l "anki:play:") l then
    match l.drop 10 with
    | [] => none
    | c :: rest => if c = ']' then none else scanToBr rest
  else none

/-- `.replace(/<style[^>]*>[\s\S]*?<\/style>/gi, "")`. -/
def removeStyleF : Nat → List Char → List Char
  | 0, s => s
  | _ + 1, [] => []
  | fuel + 1, c :: rest =>
    if c = '<' then
      match styleRest rest with
      | some r => removeStyleF fuel r
      | none => c :: removeStyleF fuel rest
    else c :: removeStyleF fuel rest

/-- `.replace(/<div[^>]*>/g, "\n")`. -/
def replaceDivsF : Nat → List Char → List Char
  | 0, s => s
  | _ + 1, [] => []
  | fuel + 1, c :: rest =>
    if c = '<' then
      match divRest rest with
      | some r => '\n' :: replaceDivsF fuel r
      | none => c :: replaceDivsF fuel rest
    else c :: replaceDivsF fuel rest

/-- `.replace(/<[^>]+>/g, " ")`. -/
def replaceTagsF : Nat → List Char → List Char
  | 0, s => s
  | _ + 1, [] => []
  | fuel + 1, c :: rest =>
    if c = '<' then
      match tagRest rest with
      | some r => ' ' :: replaceTagsF fuel r
      | none => c :: replaceTagsF fuel rest
    else c :: replaceTagsF fuel rest

/-- `.replace(/\[anki:play:[^\]]+\]/g, "")`. -/
def removeAnkiPlayF : Nat → List Char → List Char
  | 0, s => s
  | _ + 1, [] => []
  | fuel + 1, c :: rest =>
    if c = '[' then
      match ankiRest rest with
      | some r => removeAnkiPlayF fuel r
      | none => c :: removeAnkiPlayF fuel rest
    else c :: removeAnkiPlayF fuel rest

/-- `.replace(/pat/g, rep)` for a literal pattern `pat`. -/
def replaceLitF (pat rep : List Char) : Nat → List Char → List Char
  | 0, s => s
  | _ + 1, [] => []
  | fuel + 1, c :: rest =>
    if !pat.isEmpty && leadsWith pat (c :: rest) then
      rep ++ replaceLitF pat rep fuel ((c :: rest).drop pat.length)
    else c :: replaceLitF pat rep fuel rest

/-- The text normalizer `cleanWithRegex` of src/index.ts: style blocks
removed, div open tags turned into newlines, remaining tags into spaces,
anki play directives removed, five named entities decoded, then each
line trimmed, empty lines dropped and the rest rejoined with newlines. -/
def cleanWithRegex (s : List Char) : List Char :=
  let s1 := removeStyleF s.length s
  let s2 := replaceDivsF s1.length s1
  let s3 := replaceTagsF s2.length s2
  let s4 := removeAnkiPlayF s3.length s3
  let s5 := replaceLitF (s2l "&nbsp;") (s2l " ") s4.length s4
  let s6 := replaceLitF (s2l "&amp;") (s2l "&") s5.length s5
  let s7 := replaceLitF (s2l "&lt;") (s2l "<") s6.length s6
  let s8 := replaceLitF (s2l "&gt;") (s2l ">") s7.length s7
  let s9 := replaceLitF (s2l "&quot;") (s2l "\"") s8.length s8
  reflow s9

/-- A card as projected by the server (interface `Card` of src/index.ts). -/
structure Card where
  cardId : Int
  question : List Char
  answer : List Char
  due : Int
deriving DecidableEq, Repr

/-- The fields of a backend card-detail record that the server reads
(`card.cardId`, `card.question`, `card.answer`, `card.due`). -/
structure CardInfo where
  cardId : Int
  question : List Char
  answer : List Char
  due : Int
deriving DecidableEq, Repr

/-- The projection applied to each detail record in `findCardsAndOrder`:
identifier and due value copied, question and answer normalized. -/
def projectCard (c : CardInfo) : Card :=
  { cardId := c.cardId, question := cleanWithRegex c.question,
    answer := cleanWithRegex c.answer, due := c.due }

/-- Insert a card into a list sorted by `due`, before the first card of
due value not less than its own (so that earlier cards win ties). -/
def insertByDue (c : Card) : List Card → List Card
  | [] => [c]
  | d :: rest => if c.due ≤ d.due then c :: d :: rest else d :: insertByDue c rest

/-- `.sort((a, b) => a.due - b.due)` — JS `Array.prototype.sort` is
stable, and a stable sort's output is unique, so it is embedded as a
stable insertion sort on the `due` key. -/
def sortByDue : List Card → List Card
  | [] => []
  | c :: rest => insertByDue c (sortByDue rest)

/-- An integer-or-NaN JS number (the fragment of JS number semantics the
dispatcher exercises: `due` values, counts, and `Number()` coercions that
either produce an integer or NaN). -/
inductive JsNum where
  | nan : JsNum
  | int : Int → JsNum
deriving DecidableEq, Repr

/-- A JSON-like runtime value, as found in a tool-call argument bag. -/
inductive JVal where
  | jnum : JsNum → JVal
  | jstr : List Char → JVal
  | jbool : Bool → JVal
  | jnull : JVal
  | jarr : List JVal → JVal
  | jobj : List (List Char × JVal) → JVal
deriving Repr

/-- An argument bag: field name to value, first binding wins. -/
abbrev ArgBag := List (List Char × JVal)

/-- Field lookup in an argument bag or object. -/
def getArg : List (List Char × JVal) → List Char → Option JVal
  | [], _ => none
  | (k, v) :: rest, key => if k = key then some v else getArg rest key

mutual
/-- `String(x)`: the ECMAScript ToString coercion on `JVal`. -/
def jsToString : JVal → List Char
  | .jnum .nan => s2l "NaN"
  | .jnum (.int n) => intStr n
  | .jstr s => s
  | .jbool true => s2l "true"
  | .jbool false => s2l "false"
  | .jnull => s2l "null"
  | .jobj _ => s2l "[object Object]"
  | .jarr l => joinSep (s2l ",") (jsArrElems l)

/-- Element rendering for `Array.prototype.join` (null elements render
as the empty string). -/
def jsArrElems : List JVal → List (List Char)
  | [] => []
  | .jnull :: rest => [] :: jsArrElems rest
  | v :: rest => jsToString v :: jsArrElems rest
end

/-- `String(x)` where `x` may be absent (`undefined`). -/
def jsToStringOpt : Option JVal → List Char
  | none => s2l "undefined"
  | some v => jsToString v

/-- Integer parsing of a trimmed numeric string: optional sign followed
by decimal digits. -/
def parseDigits (l : List Char) : Option Nat :=
  if l.isEmpty || !(l.all (·.isDigit)) then none
  else some (l.foldl (fun acc c => acc * 10 + (c.toNat - '0'.toNat)) 0)

/-- `Number(x)` on a string: the empty (or all-whitespace) string is 0,
an optionally signed decimal integer literal parses, anything else is
NaN.  (Fractional, exponent and radix-prefixed literals, which the
server never receives for its integer-valued arguments, are not
modelled and fall to NaN.) -/
def parseNumJS (s : List Char) : JsNum :=
  let t := trimJS s
  match t with
  | [] => .int 0
  | '-' :: rest => match parseDigits rest with
    | some n => .int (-(n : Int))
    | none => .nan
  | '+' :: rest => match parseDigits rest with
    | some n => .int (n : Int)
    | none => .nan
  | _ => match parseDigits t with
    | some n => .int (n : Int)
    | none => .nan

/-- `Number(x)` for a possibly absent argument value: `undefined` is
NaN, null is 0, booleans are 0/1, strings parse as above, arrays and
objects coerce through their string form. -/
def toNumber : Option JVal → JsNum
  | none => .nan
  | some (.jnum n) => n
  | some (.jnull) => .int 0
  | some (.jbool true) => .int 1
  | some (.jbool false) => .int 0
  | some v => parseNumJS (jsToString v)

/-- `arr.slice(0, n)`: NaN clamps to 0, a negative end counts from the
end of the array. -/
def sliceTo (l : List Card) : JsNum → List Card
  | .nan => []
  | .int k => if 0 ≤ k then l.take k.toNat else l.take ((l.length : Int) + k).toNat

/-- One hexadecimal digit, lowercase. -/
def hexDig (n : Nat) : Char :=
  if n < 10 then Char.ofNat ('0'.toNat + n) else Char.ofNat ('a'.toNat + n - 10)

/-- `JSON.stringify` escaping of a single character. -/
def escChar (c : Char) : List Char :=
  if c = '"' then s2l "\\\""
  else if c = '\\' then s2l "\\\\"
  else if c = '\x08' then s2l "\\b"
  else if c = '\t' then s2l "\\t"
  else if c = '\n' then s2l "\\n"
  else if c = '\x0c' then s2l "\\f"
  else if c = '\r' then s2l "\\r"
  else if c.toNat < 0x20 then s2l "\\u00" ++ [hexDig (c.toNat / 16), hexDig (c.toNat % 16)]
  else [c]

/-- `JSON.stringify` of a string. -/
def jsonQuote (s : List Char) : List Char :=
  '"' :: (s.map escChar).flatten ++ ['"']

/-- `n` spaces, for `JSON.stringify(x, null, 2)` indentation. -/
def spaces (n : Nat) : List Char := List.replicate n ' '

mutual
/-- `JSON.stringify(v, null, 2)` at the given current indentation. -/
def jsonIndent (ind : Nat) : JVal → List Char
  | .jnum .nan => s2l "null"
  | .jnum (.int n) => intStr n
  | .jstr s => jsonQuote s
  | .jbool true => s2l "true"
  | .jbool false => s2l "false"
  | .jnull => s2l "null"
  | .jarr [] => s2l "[]"
  | .jarr (v :: vs) =>
    s2l "[\n" ++ joinSep (s2l ",\n") (jsonIndentArr (ind + 2) (v :: vs)) ++
      s2l "\n" ++ spaces ind ++ s2l "]"
  | .jobj [] => s2l "\x7b\x7d"
  | .jobj (f :: fs) =>
    s2l "\x7b\n" ++ joinSep (s2l ",\n") (jsonIndentFields (ind + 2) (f :: fs)) ++
      s2l "\n" ++ spaces ind ++ s2l "\x7d"

/-- Array items, each on its own indented line. -/
def jsonIndentArr (ind : Nat) : List JVal → List (List Char)
  | [] => []
  | v :: rest => (spaces ind ++ jsonIndent ind v) :: jsonIndentArr ind rest

/-- Object fields, each on its own indented line as `"key": value`. -/
def jsonIndentFields (ind : Nat) : List (List Char × JVal) → List (List Char)
  | [] => []
  | (k, v) :: rest =>
    (spaces ind ++ jsonQuote k ++ s2l ": " ++ jsonIndent ind v) :: jsonIndentFields ind rest
end

/-- Compact `JSON.stringify` of a string array (used for deck name
lists). -/
def jsonStrArr (l : List (List Char)) : List Char :=
  s2l "[" ++ joinSep (s2l ",") (l.map jsonQuote) ++ s2l "]"

/-- Compact `JSON.stringify` of a string-to-integer mapping (used for
deck name/id dictionaries). -/
def jsonStrIntObj (l : List (List Char × Int)) : List Char :=
  s2l "\x7b" ++
    joinSep (s2l ",") (l.map (fun kv => jsonQuote kv.1 ++ s2l ":" ++ intStr kv.2)) ++
  s2l "\x7d"

/-- Compact `JSON.stringify` of a boolean array. -/
def jsonBoolArr (l : List Bool) : List Char :=
  s2l "[" ++ joinSep (s2l ",") (l.map (fun b => if b then s2l "true" else s2l "false")) ++ s2l "]"

/-- Compact `JSON.stringify` of a number array. -/
def jsonIntArr (l : List Int) : List Char :=
  s2l "[" ++ joinSep (s2l ",") (l.map intStr) ++ s2l "]"

/-- Compact `JSON.stringify` of one projected card (field order follows
the object literal in `findCardsAndOrder`). -/
def jsonCard (c : Card) : List Char :=
  s2l "\x7b\"cardId\":" ++ intStr c.cardId ++
  s2l ",\"question\":" ++ jsonQuote c.question ++
  s2l ",\"answer\":" ++ jsonQuote c.answer ++
  s2l ",\"due\":" ++ intStr c.due ++ s2l "\x7d"

/-- Compact `JSON.stringify` of a card array. -/
def jsonCards (l : List Card) : List Char :=
  s2l "[" ++ joinSep (s2l ",") (l.map jsonCard) ++ s2l "]"

/-- A tool invocation result: every handler branch returns a single
text content block, modelled by its text. -/
structure ToolResult where
  text : List Char
deriving DecidableEq, Repr

/-- An error message (the `message` of a thrown `Error`). -/
abbrev Err := List Char

/-- One answer item of the `update_cards` tool
(`{ cardId: number; ease: number }`). -/
structure Answer where
  cardId : Int
  ease : Int
deriving DecidableEq, Repr

/-- The note payload built by the `add_card` case (fixed deck `Default`
and model `Basic`). -/
structure AnkiNote where
  deckName : List Char
  modelName : List Char
  front : List Char
  back : List Char
deriving DecidableEq, Repr

/-- The opaque yanki-connect backend: one field per backend operation
the server invokes, each either failing with a thrown error message or
succeeding with its result. -/
structure Backend where
  findCards : List Char → Except Err (List Int)
  cardsInfo : List Int → Except Err (List CardInfo)
  answerCards : List Answer → Except Err (List Bool)
  addNote : AnkiNote → Except Err Int
  deckNames : Except Err (List (List Char))
  deckNamesAndIds : Except Err (List (List Char × Int))
  createDeck : List Char → Except Err Int
  deleteDecks : List (List Char) → Bool → Except Err Unit
  getDeckStats : List (List Char) → Except Err JVal
  changeDeck : List Int → List Char → Except Err Unit
  suspend : List Int → Except Err Unit
  unsuspend : List Int → Except Err Unit
  areSuspended : List Int → Except Err (List Bool)
  areDue : List Int → Except Err (List Bool)
  forgetCards : List Int → Except Err Unit
  getEaseFactors : List Int → Except Err (List Int)
  setEaseFactors : List Int → List Int → Except Err (List Bool)

/-- `findCardsAndOrder` of src/index.ts: find matching identifiers,
return `[]` when there are none (without touching `cardsInfo`),
otherwise fetch the details, project and normalize each record, and
sort by due value. -/
def findCardsAndOrder (be : Backend) (query : List Char) : Except Err (List Card) :=
  match be.findCards query with
  | .error e => .error e
  | .ok cardIds =>
    if cardIds.length = 0 then .ok []
    else
      match be.cardsInfo cardIds with
      | .error e => .error e
      | .ok infos => .ok (sortByDue (infos.map projectCard))

/-- `Array.prototype.filter((_, index) => p index)`, generalized over
the index of the first element. -/
def filterIdxFrom (p : Nat → Bool) : Nat → List α → List α
  | _, [] => []
  | i, a :: rest =>
    if p i then a :: filterIdxFrom p (i + 1) rest else filterIdxFrom p (i + 1) rest

/-- `Array.prototype.filter((_, index) => p index)`. -/
def filterIdx (p : Nat → Bool) (l : List α) : List α := filterIdxFrom p 0 l

/-- Decode a JS value expected to be a number. -/
def decodeInt : JVal → Option Int
  | .jnum (.int n) => some n
  | _ => none

/-- Decode an argument expected to be a `number[]`. -/
def decodeIntArrArg : Option JVal → Option (List Int)
  | some (.jarr l) => l.mapM decodeInt
  | _ => none

/-- Decode a JS value expected to be a string. -/
def decodeStr : JVal → Option (List Char)
  | .jstr s => some s
  | _ => none

/-- Decode an argument expected to be a `string[]`. -/
def decodeStrArrArg : Option JVal → Option (List (List Char))
  | some (.jarr l) => l.mapM decodeStr
  | _ => none

/-- Decode one `update_cards` answer object. -/
def decodeAnswer : JVal → Option Answer
  | .jobj fs =>
    match getArg fs (s2l "cardId"), getArg fs (s2l "ease") with
    | some (.jnum (.int c)), some (.jnum (.int e)) => some ⟨c, e⟩
    | _, _ => none
  | _ => none

/-- Decode the `answers` argument of `update_cards`. -/
def decodeAnswersArg : Option JVal → Option (List Answer)
  | some (.jarr l) => l.mapM decodeAnswer
  | _ => none

/-- The detail record as serialized by `get_cards_info` (restricted to
the fields modelled in `CardInfo`). -/
def cardInfoJVal (c : CardInfo) : JVal :=
  .jobj [(s2l "cardId", .jnum (.int c.cardId)), (s2l "question", .jstr c.question),
         (s2l "answer", .jstr c.answer), (s2l "due", .jnum (.int c.due))]

/-- The body of the `try` block of the CallToolRequestSchema handler:
the `switch (name)` over the 18 tools.  An argument value whose shape
the code's `as`-casts assume and that would make the JS code throw a
runtime `TypeError` is modelled by an error with a fixed message (such
an error is wrapped by the catch block exactly like any other). -/
def handleTool (be : Backend) (name : List Char) (args : ArgBag) : Except Err ToolResult :=
  if name = s2l "update_cards" then
    match decodeAnswersArg (getArg args (s2l "answers")) with
    | none => .error (s2l "TypeError: answers")
    | some answers =>
      match be.answerCards answers with
      | .error e => .error e
      | .ok result =>
        let successfulCards :=
          (filterIdx (fun i => result.getD i false) answers).map (fun a => a.cardId)
        let failedCards := filterIdx (fun i => !(result.getD i false)) answers
        if 0 < failedCards.length then
          .error (s2l "Failed to update cards with IDs: " ++
            joinSep (s2l ", ") ((failedCards.map (fun a => a.cardId)).map intStr))
        else
          .ok ⟨s2l "Updated cards " ++ joinSep (s2l ", ") (successfulCards.map intStr)⟩
  else if name = s2l "add_card" then
    let front := jsToStringOpt (getArg args (s2l "front"))
    let back := jsToStringOpt (getArg args (s2l "back"))
    match be.addNote ⟨s2l "Default", s2l "Basic", front, back⟩ with
    | .error e => .error e
    | .ok noteId =>
      match be.findCards (s2l "nid:" ++ intStr noteId) with
      | .error e => .error e
      | .ok ids =>
        .ok ⟨s2l "Created card with id " ++
          (match ids.head? with | some c => intStr c | none => s2l "undefined")⟩
  else if name = s2l "get_due_cards" then
    let num := toNumber (getArg args (s2l "num"))
    match findCardsAndOrder be (s2l "is:due") with
    | .error e => .error e
    | .ok cards => .ok ⟨jsonCards (sliceTo cards num)⟩
  else if name = s2l "get_new_cards" then
    let num := toNumber (getArg args (s2l "num"))
    match findCardsAndOrder be (s2l "is:new") with
    | .error e => .error e
    | .ok cards => .ok ⟨jsonCards (sliceTo cards num)⟩
  else if name = s2l "list_decks" then
    match be.deckNames with
    | .error e => .error e
    | .ok names => .ok ⟨jsonStrArr names⟩
  else if name = s2l "list_decks_with_ids" then
    match be.deckNamesAndIds with
    | .error e => .error e
    | .ok m => .ok ⟨jsonStrIntObj m⟩
  else if name = s2l "create_deck" then
    let deckName := jsToStringOpt (getArg args (s2l "deck"))
    match be.createDeck deckName with
    | .error e => .error e
    | .ok id =>
      .ok ⟨s2l "Created deck \"" ++ deckName ++ s2l "\" with ID: " ++ intStr id⟩
  else if name = s2l "delete_decks" then
    match decodeStrArrArg (getArg args (s2l "decks")) with
    | none => .error (s2l "TypeError: decks")
    | some names =>
      match be.deleteDecks names true with
      | .error e => .error e
      | .ok _ => .ok ⟨s2l "Deleted decks: " ++ joinSep (s2l ", ") names⟩
  else if name = s2l "get_deck_stats" then
    match decodeStrArrArg (getArg args (s2l "decks")) with
    | none => .error (s2l "TypeError: decks")
    | some names =>
      match be.getDeckStats names with
      | .error e => .error e
      | .ok stats => .ok ⟨jsonIndent 0 stats⟩
  else if name = s2l "move_cards_to_deck" then
    match decodeIntArrArg (getArg args (s2l "cards")) with
    | none => .error (s2l "TypeError: cards")
    | some cardIds =>
      let targetDeck := jsToStringOpt (getArg args (s2l "deck"))
      match be.changeDeck cardIds targetDeck with
      | .error e => .error e
      | .ok _ =>
        .ok ⟨s2l "Moved " ++ natStr cardIds.length ++ s2l " cards to deck \"" ++
          targetDeck ++ s2l "\""⟩
  else if name = s2l "get_cards_info" then
    match decodeIntArrArg (getArg args (s2l "cards")) with
    | none => .error (s2l "TypeError: cards")
    | some cardIds =>
      match be.cardsInfo cardIds with
      | .error e => .error e
      | .ok infos => .ok ⟨jsonIndent 0 (.jarr (infos.map cardInfoJVal))⟩
  else if name = s2l "suspend_cards" then
    match decodeIntArrArg (getArg args (s2l "cards")) with
    | none => .error (s2l "TypeError: cards")
    | some cardIds =>
      match be.suspend cardIds with
      | .error e => .error e
      | .ok _ =>
        .ok ⟨s2l "Suspended " ++ natStr cardIds.length ++ s2l " cards: " ++
          joinSep (s2l ", ") (cardIds.map intStr)⟩
  else if name = s2l "unsuspend_cards" then
    match decodeIntArrArg (getArg args (s2l "cards")) with
    | none => .error (s2l "TypeError: cards")
    | some cardIds =>
      match be.unsuspend cardIds with
      | .error e => .error e
      | .ok _ =>
        .ok ⟨s2l "Unsuspended " ++ natStr cardIds.length ++ s2l " cards: " ++
          joinSep (s2l ", ") (cardIds.map intStr)⟩
  else if name = s2l "check_suspended_status" then
    match decodeIntArrArg (getArg args (s2l "cards")) with
    | none => .error (s2l "TypeError: cards")
    | some cardIds =>
      match be.areSuspended cardIds with
      | .error e => .error e
      | .ok status => .ok ⟨jsonBoolArr status⟩
  else if name = s2l "check_due_status" then
    match decodeIntArrArg (getArg args (s2l "cards")) with
    | none => .error (s2l "TypeError: cards")
    | some cardIds =>
      match be.areDue cardIds with
      | .error e => .error e
      | .ok status => .ok ⟨jsonBoolArr status⟩
  else if name = s2l "forget_cards" then
    match decodeIntArrArg (getArg args (s2l "cards")) with
    | none => .error (s2l "TypeError: cards")
    | some cardIds =>
      match be.forgetCards cardIds with
      | .error e => .error e
      | .ok _ =>
        .ok ⟨s2l "Reset " ++ natStr cardIds.length ++ s2l " cards to new status: " ++
          joinSep (s2l ", ") (cardIds.map intStr)⟩
  else if name = s2l "get_ease_factors" then
    match decodeIntArrArg (getArg args (s2l "cards")) with
    | none => .error (s2l "TypeError: cards")
    | some cardIds =>
      match be.getEaseFactors cardIds with
      | .error e => .error e
      | .ok factors => .ok ⟨jsonIntArr factors⟩
  else if name = s2l "set_ease_factors" then
    match getArg args (s2l "cards"), getArg args (s2l "easeFactors") with
    | some (.jarr cs), some (.jarr es) =>
      if cs.length ≠ es.length then
        .error (s2l "Cards and easeFactors arrays must have the same length")
      else
        match cs.mapM decodeInt, es.mapM decodeInt with
        | some cardIds, some easeFactors =>
          match be.setEaseFactors cardIds easeFactors with
          | .error e => .error e
          | .ok _ => .ok ⟨s2l "Set ease factors for " ++ natStr cs.length ++ s2l " cards"⟩
        | _, _ => .error (s2l "TypeError: set_ease_factors elements")
    | _, _ => .error (s2l "TypeError: set_ease_factors arguments")
  else if name = s2l "get_all_cards_in_deck" then
    let deckName := jsToStringOpt (getArg args (s2l "deck"))
    let query := s2l "deck:\"" ++ deckName ++ s2l "\""
    match findCardsAndOrder be query with
    | .error e => .error e
    | .ok cards => .ok ⟨jsonCards cards⟩
  else
    .error (s2l "Unknown tool: " ++ name)

/-- The CallToolRequestSchema handler: the missing-argument-bag check
(which sits before the `try` block, so its error is not re-wrapped),
then the tool switch inside `try`, whose thrown errors the `catch`
re-wraps into the uniform template. -/
def callTool (be : Backend) (name : List Char) (args : Option ArgBag) : Except Err ToolResult :=
  match args with
  | none => .error (s2l "No arguments provided for tool: " ++ name)
  | some bag =>
    match handleTool be name bag with
    | .ok r => .ok r
    | .error e => .error (s2l "Error in tool " ++ name ++ s2l ": " ++ e)

/-- A backend whose every operation succeeds trivially; used to
instantiate theorems at concrete inputs. -/
def stubBackend : Backend where
  findCards := fun _ => .ok []
  cardsInfo := fun _ => .ok []
  answerCards := fun _ => .ok []
  addNote := fun _ => .ok 0
  deckNames := .ok []
  deckNamesAndIds := .ok []
  createDeck := fun _ => .ok 0
  deleteDecks := fun _ _ => .ok ()
  getDeckStats := fun _ => .ok (.jobj [])
  changeDeck := fun _ _ => .ok ()
  suspend := fun _ => .ok ()
  unsuspend := fun _ => .ok ()
  areSuspended := fun _ => .ok []
  areDue := fun _ => .ok []
  forgetCards := fun _ => .ok ()
  getEaseFactors := fun _ => .ok []
  setEaseFactors := fun _ _ => .ok []

/-- A backend holding two cards, returned by `cardsInfo` in the order
id 2 (due 5) then id 1 (due 3). -/
def demoBackend : Backend :=
  { stubBackend with
    findCards := fun _ => .ok [1, 2]
    cardsInfo := fun _ =>
      .ok [⟨2, s2l "q2", s2l "a2", 5⟩, ⟨1, s2l "q1", s2l "a1", 3⟩] }

/-- A backend whose `answerCards` reports the second item failed. -/
def updBackend : Backend :=
  { stubBackend with answerCards := fun _ => .ok [true, false, true] }

/-- A backend whose `answerCards` reports every item succeeded. -/
def updOkBackend : Backend :=
  { stubBackend with answerCards := fun _ => .ok [true, true, true] }

/-- An `update_cards` argument bag with three answer items. -/
def updBag : ArgBag :=
  [(s2l "answers", .jarr
    [.jobj [(s2l "cardId", .jnum (.int 1)), (s2l "ease", .jnum (.int 3))],
     .jobj [(s2l "cardId", .jnum (.int 2)), (s2l "ease", .jnum (.int 3))],
     .jobj [(s2l "cardId", .jnum (.int 3)), (s2l "ease", .jnum (.int 4))]])]

/-- A `set_ease_factors` argument bag with 3 cards but 2 ease factors. -/
def easeBag : ArgBag :=
  [(s2l "cards", .jarr [.jnum (.int 1), .jnum (.int 2), .jnum (.int 3)]),
   (s2l "easeFactors", .jarr [.jnum (.int 250), .jnum (.int 300)])]

/-- An argument bag whose `num` is a non-numeric string. -/
def nanBag : ArgBag := [(s2l "num", .jstr (s2l "many"))]

/-! ### Properties of the re-flow stage -/

/-- Dropping a satisfying prefix twice is the same as dropping it once. -/
theorem dropWhile_isJsWS_idem (l : List Char) :
    List.dropWhile isJsWS (List.dropWhile isJsWS l) = List.dropWhile isJsWS l := by
  induction l with
  | nil => rfl
  | cons c rest ih =>
    by_cases h : isJsWS c
    · rw [List.dropWhile_cons_of_pos h, ih]
    · rw [List.dropWhile_cons_of_neg h, List.dropWhile_cons_of_neg h]

/-- `trimRight` is idempotent. -/
theorem trimRight_idem (l : List Char) : trimRight (trimRight l) = trimRight l := by
  simp [trimRight, dropWhile_isJsWS_idem]

/-- A list fixed by `trimLeft` stays fixed by it after `trimRight`. -/
theorem trimLeft_trimRight_fixed (l : List Char) (h : trimLeft l = l) :
    trimLeft (trimRight l) = trimRight l := by
  cases l with
  | nil => rfl
  | cons c rest =>
    have hc : isJsWS c = false := by
      by_contra hc
      have hc' : isJsWS c = true := by revert hc; cases isJsWS c <;> simp
      have hlen := (List.dropWhile_sublist (l := rest) isJsWS).length_le
      have : trimLeft (c :: rest) = List.dropWhile isJsWS rest := by
        simp [trimLeft, List.dropWhile_cons_of_pos hc']
      rw [this] at h
      have := congrArg List.length h
      simp at this
      omega
    have hsplit : ∀ zs : List Char, List.dropWhile isJsWS (zs ++ [c]) =
        List.dropWhile isJsWS zs ++ [c] := by
      intro zs
      induction zs with
      | nil => simp [List.dropWhile_cons_of_neg, hc]
      | cons z zrest ihz =>
        by_cases hz : isJsWS z
        · rw [List.cons_append, List.dropWhile_cons_of_pos hz,
            List.dropWhile_cons_of_pos hz, ihz]
        · rw [List.cons_append, List.dropWhile_cons_of_neg hz,
            List.dropWhile_cons_of_neg hz, List.cons_append]
    have : trimRight (c :: rest) = c :: (List.dropWhile isJsWS rest.reverse).reverse := by
      simp only [trimRight, List.reverse_cons, hsplit rest.reverse, List.reverse_append]
      rfl
    rw [this]
    simp [trimLeft, List.dropWhile_cons_of_neg, hc]

/-- `trim()` is idempotent. -/
theorem trimJS_idem (l : List Char) : trimJS (trimJS l) = trimJS l := by
  unfold trimJS
  rw [trimLeft_trimRight_fixed (trimLeft l) (dropWhile_isJsWS_idem l), trimRight_idem]

/-- Every character of `trim(l)` is a character of `l`. -/
theorem mem_of_mem_trimJS {c : Char} {l : List Char} (h : c ∈ trimJS l) : c ∈ l := by
  unfold trimJS trimRight trimLeft at h
  rw [List.mem_reverse] at h
  have h1 := List.Sublist.mem h (List.dropWhile_sublist isJsWS)
  rw [List.mem_reverse] at h1
  exact List.Sublist.mem h1 (List.dropWhile_sublist isJsWS)

/-- `split("\n")` never returns an empty list of segments. -/
theorem splitOnNl_ne_nil (s : List Char) : splitOnNl s ≠ [] := by
  induction s with
  | nil => simp [splitOnNl]
  | cons c rest ih =>
    by_cases hc : c = '\n'
    · simp [splitOnNl, hc]
    · rw [splitOnNl, if_neg hc]
      cases h : splitOnNl rest with
      | nil => exact absurd h ih
      | cons a as => simp

/-- Segments produced by `split("\n")` contain no newline. -/
theorem no_nl_of_mem_splitOnNl :
    ∀ (s : List Char) (l : List Char), l ∈ splitOnNl s → '\n' ∉ l := by
  intro s
  induction s with
  | nil =>
    intro l hl
    simp [splitOnNl] at hl
    simp [hl]
  | cons c rest ih =>
    intro l hl
    by_cases hc : c = '\n'
    · rw [splitOnNl, if_pos hc] at hl
      rcases List.mem_cons.mp hl with rfl | hl
      · simp
      · exact ih l hl
    · rw [splitOnNl, if_neg hc] at hl
      cases h : splitOnNl rest with
      | nil => exact absurd h (splitOnNl_ne_nil rest)
      | cons a as =>
        rw [h, List.modifyHead_cons] at hl
        rcases List.mem_cons.mp hl with rfl | hl
        · intro hmem
          rcases List.mem_cons.mp hmem with h1 | h1
          · exact hc h1.symm
          · exact ih a (h ▸ List.mem_cons_self a as) h1
        · exact ih l (h ▸ List.mem_cons_of_mem a hl)

/-- Every character in some segment of `split("\n")` is in the input. -/
theorem mem_of_mem_splitOnNl :
    ∀ (s : List Char) (l : List Char) (c : Char), l ∈ splitOnNl s → c ∈ l → c ∈ s := by
  intro s
  induction s with
  | nil =>
    intro l c hl hc
    simp [splitOnNl] at hl
    subst hl
    simp at hc
  | cons c0 rest ih =>
    intro l c hl hc
    by_cases h0 : c0 = '\n'
    · rw [splitOnNl, if_pos h0] at hl
      rcases List.mem_cons.mp hl with rfl | hl
      · simp at hc
      · exact List.mem_cons_of_mem c0 (ih l c hl hc)
    · rw [splitOnNl, if_neg h0] at hl
      cases h : splitOnNl rest with
      | nil => exact absurd h (splitOnNl_ne_nil rest)
      | cons a as =>
        rw [h, List.modifyHead_cons] at hl
        rcases List.mem_cons.mp hl with rfl | hl
        · rcases List.mem_cons.mp hc with rfl | hc
          · exact List.mem_cons_self c rest
          · exact List.mem_cons_of_mem c0 (ih a c (h ▸ List.mem_cons_self a as) hc)
        · exact List.mem_cons_of_mem c0 (ih l c (h ▸ List.mem_cons_of_mem a hl) hc)

/-- Splitting a newline-free list gives back that single segment. -/
theorem splitOnNl_single (l : List Char) (h : '\n' ∉ l) : splitOnNl l = [l] := by
  induction l with
  | nil => rfl
  | cons c rest ih =>
    have hc : c ≠ '\n' := fun hc => h (hc ▸ List.mem_cons_self c rest)
    rw [splitOnNl, if_neg hc, ih (fun hm => h (List.mem_cons_of_mem c hm)),
      List.modifyHead_cons]

/-- Splitting at a leading newline-free block peels off one segment. -/
theorem splitOnNl_append_nl (l t : List Char) (h : '\n' ∉ l) :
    splitOnNl (l ++ '\n' :: t) = l :: splitOnNl t := by
  induction l with
  | nil => simp [splitOnNl]
  | cons c rest ih =>
    have hc : c ≠ '\n' := fun hc => h (hc ▸ List.mem_cons_self c rest)
    rw [List.cons_append, splitOnNl, if_neg hc,
      ih (fun hm => h (List.mem_cons_of_mem c hm)), List.modifyHead_cons]

/-- `split` is a left inverse of `join` on non-empty lists of
newline-free segments. -/
theorem splitOnNl_joinNl :
    ∀ ls : List (List Char), ls ≠ [] → (∀ l ∈ ls, '\n' ∉ l) →
      splitOnNl (joinNl ls) = ls := by
  intro ls
  induction ls with
  | nil => intro h; exact absurd rfl h
  | cons l ls ih =>
    intro _ hmem
    cases ls with
    | nil => exact splitOnNl_single l (hmem l (List.mem_cons_self l []))
    | cons l2 ls2 =>
      rw [show joinNl (l :: l2 :: ls2) = l ++ '\n' :: joinNl (l2 :: ls2) from rfl,
        splitOnNl_append_nl l _ (hmem l (List.mem_cons_self l _)),
        ih (List.cons_ne_nil l2 ls2) (fun x hx => hmem x (List.mem_cons_of_mem l hx))]

/-- Characters of `join("\n")` come from a segment or are the newline. -/
theorem mem_joinNl :
    ∀ (ls : List (List Char)) (c : Char), c ∈ joinNl ls →
      c = '\n' ∨ ∃ l ∈ ls, c ∈ l := by
  intro ls
  induction ls with
  | nil => intro c hc; simp [joinNl] at hc
  | cons l ls ih =>
    intro c hc
    cases ls with
    | nil => exact Or.inr ⟨l, List.mem_cons_self l [], hc⟩
    | cons l2 ls2 =>
      rw [show joinNl (l :: l2 :: ls2) = l ++ '\n' :: joinNl (l2 :: ls2) from rfl] at hc
      rcases List.mem_append.mp hc with h1 | h1
      · exact Or.inr ⟨l, List.mem_cons_self l _, h1⟩
      · rcases List.mem_cons.mp h1 with rfl | h1
        · exact Or.inl rfl
        · rcases ih c h1 with h2 | ⟨x, hx, hcx⟩
          · exact Or.inl h2
          · exact Or.inr ⟨x, List.mem_cons_of_mem l hx, hcx⟩

/-- The segments kept by the re-flow stage are newline-free, trimmed
and non-empty. -/
theorem reflow_segs (s : List Char) :
    ∀ l ∈ ((splitOnNl s).map trimJS).filter (fun l => decide (0 < l.length)),
      '\n' ∉ l ∧ trimJS l = l ∧ 0 < l.length := by
  intro l hl
  rcases List.mem_filter.mp hl with ⟨hmap, hlen⟩
  rcases List.mem_map.mp hmap with ⟨seg, hseg, rfl⟩
  refine ⟨?_, trimJS_idem seg, by simpa using hlen⟩
  intro hnl
  exact no_nl_of_mem_splitOnNl s seg hseg (mem_of_mem_trimJS hnl)

/-- Re-flowing is idempotent. -/
theorem reflow_idem (s : List Char) : reflow (reflow s) = reflow s := by
  have hsegs := reflow_segs s
  cases hls : ((splitOnNl s).map trimJS).filter (fun l => decide (0 < l.length)) with
  | nil =>
    have h1 : reflow s = [] := by rw [reflow, hls]; rfl
    rw [h1]
    rfl
  | cons a as =>
    have h1 : reflow s = joinNl (a :: as) := by rw [reflow, hls]
    rw [hls] at hsegs
    rw [h1, reflow,
      splitOnNl_joinNl (a :: as) (by simp) (fun x hx => (hsegs x hx).1)]
    have hmap : (a :: as).map trimJS = a :: as := by
      conv_rhs => rw [← List.map_id (a :: as)]
      exact List.map_congr_left (fun x hx => (hsegs x hx).2.1)
    rw [hmap, List.filter_eq_self.mpr (fun x hx => by
      simpa using (hsegs x hx).2.2)]

/-- Every character of a re-flowed string is a character of the input
or a newline. -/
theorem mem_reflow (s : List Char) (c : Char) (h : c ∈ reflow s) :
    c = '\n' ∨ c ∈ s := by
  rcases mem_joinNl _ c h with h1 | ⟨l, hl, hcl⟩
  · exact Or.inl h1
  · rcases List.mem_filter.mp hl with ⟨hmap, _⟩
    rcases List.mem_map.mp hmap with ⟨seg, hseg, rfl⟩
    exact Or.inr (mem_of_mem_splitOnNl s seg c hseg (mem_of_mem_trimJS hcl))

/-- The non-empty output of the re-flow stage splits into non-empty
trimmed segments. -/
theorem reflow_lines (s : List Char) :
    reflow s = [] ∨ ∀ l ∈ splitOnNl (reflow s), l ≠ [] ∧ trimJS l = l := by
  have hsegs := reflow_segs s
  cases hls : ((splitOnNl s).map trimJS).filter (fun l => decide (0 < l.length)) with
  | nil => exact Or.inl (by rw [reflow, hls]; rfl)
  | cons a as =>
    rw [hls] at hsegs
    refine Or.inr ?_
    have h1 : reflow s = joinNl (a :: as) := by rw [reflow, hls]
    rw [h1, splitOnNl_joinNl (a :: as) (by simp) (fun x hx => (hsegs x hx).1)]
    intro l hl
    refine ⟨?_, (hsegs l hl).2.1⟩
    have := (hsegs l hl).2.2
    intro hnil
    rw [hnil] at this
    simp at this

/-! ### The replacement stages are the identity on markup-free text -/

/-- The style-block stage only acts at a `<`. -/
theorem removeStyleF_id (s : List Char) (h : '<' ∉ s) :
    ∀ fuel, removeStyleF fuel s = s := by
  induction s with
  | nil => intro fuel; cases fuel <;> rfl
  | cons c rest ih =>
    intro fuel
    cases fuel with
    | zero => rfl
    | succ n =>
      have hc : ¬ c = '<' := fun hc => h (hc ▸ List.mem_cons_self c rest)
      rw [removeStyleF, if_neg hc, ih (fun hm => h (List.mem_cons_of_mem c hm)) n]

/-- The div stage only acts at a `<`. -/
theorem replaceDivsF_id (s : List Char) (h : '<' ∉ s) :
    ∀ fuel, replaceDivsF fuel s = s := by
  induction s with
  | nil => intro fuel; cases fuel <;> rfl
  | cons c rest ih =>
    intro fuel
    cases fuel with
    | zero => rfl
    | succ n =>
      have hc : ¬ c = '<' := fun hc => h (hc ▸ List.mem_cons_self c rest)
      rw [replaceDivsF, if_neg hc, ih (fun hm => h (List.mem_cons_of_mem c hm)) n]

/-- The tag stage only acts at a `<`. -/
theorem replaceTagsF_id (s : List Char) (h : '<' ∉ s) :
    ∀ fuel, replaceTagsF fuel s = s := by
  induction s with
  | nil => intro fuel; cases fuel <;> rfl
  | cons c rest ih =>
    intro fuel
    cases fuel with
    | zero => rfl
    | succ n =>
      have hc : ¬ c = '<' := fun hc => h (hc ▸ List.mem_cons_self c rest)
      rw [replaceTagsF, if_neg hc, ih (fun hm => h (List.mem_cons_of_mem c hm)) n]

/-- The anki-play stage only acts at a `[`. -/
theorem removeAnkiPlayF_id (s : List Char) (h : '[' ∉ s) :
    ∀ fuel, removeAnkiPlayF fuel s = s := by
  induction s with
  | nil => intro fuel; cases fuel <;> rfl
  | cons c rest ih =>
    intro fuel
    cases fuel with
    | zero => rfl
    | succ n =>
      have hc : ¬ c = '[' := fun hc => h (hc ▸ List.mem_cons_self c rest)
      rw [removeAnkiPlayF, if_neg hc, ih (fun hm => h (List.mem_cons_of_mem c hm)) n]

/-- A literal replacement only acts where the pattern's first character
occurs. -/
theorem replaceLitF_id (pat rep : List Char) (p0 : Char) (pr : List Char)
    (hp : pat = p0 :: pr) (s : List Char) (h : p0 ∉ s) :
    ∀ fuel, replaceLitF pat rep fuel s = s := by
  induction s with
  | nil => intro fuel; cases fuel <;> rfl
  | cons c rest ih =>
    intro fuel
    cases fuel with
    | zero => rfl
    | succ n =>
      have hc : ¬ p0 = c := fun hc => h (hc ▸ List.mem_cons_self c rest)
      have hlead : leadsWith pat (c :: rest) = false := by
        rw [hp, leadsWith]
        simp [hc]
      rw [replaceLitF, hlead]
      simp only [Bool.and_false, Bool.false_eq_true, if_false]
      rw [ih (fun hm => h (List.mem_cons_of_mem c hm)) n]

/-- On text containing none of `<`, `&`, `[`, the normalizer is just
the re-flow stage. -/
theorem cleanWithRegex_eq_reflow_of_plain (s : List Char)
    (h1 : '<' ∉ s) (h2 : '&' ∉ s) (h3 : '[' ∉ s) :
    cleanWithRegex s = reflow s := by
  unfold cleanWithRegex
  simp only
  rw [removeStyleF_id s h1, replaceDivsF_id s h1, replaceTagsF_id s h1,
    removeAnkiPlayF_id s h3,
    replaceLitF_id (s2l "&nbsp;") (s2l " ") '&' (s2l "nbsp;") rfl s h2,
    replaceLitF_id (s2l "&amp;") (s2l "&") '&' (s2l "amp;") rfl s h2,
    replaceLitF_id (s2l "&lt;") (s2l "<") '&' (s2l "lt;") rfl s h2,
    replaceLitF_id (s2l "&gt;") (s2l ">") '&' (s2l "gt;") rfl s h2,
    replaceLitF_id (s2l "&quot;") (s2l "\"") '&' (s2l "quot;") rfl s h2]

/-! ### The sort on `due` is sorted and stable -/

/-- Membership in an insertion. -/
theorem mem_insertByDue (c : Card) (l : List Card) (x : Card)
    (h : x ∈ insertByDue c l) : x = c ∨ x ∈ l := by
  induction l with
  | nil =>
    rw [insertByDue] at h
    rcases List.mem_cons.mp h with rfl | h
    · exact Or.inl rfl
    · exact Or.inr h
  | cons d rest ih =>
    rw [insertByDue] at h
    by_cases hcd : c.due ≤ d.due
    · rw [if_pos hcd] at h
      rcases List.mem_cons.mp h with rfl | h
      · exact Or.inl rfl
      · exact Or.inr h
    · rw [if_neg hcd] at h
      rcases List.mem_cons.mp h with rfl | h
      · exact Or.inr (List.mem_cons_self x rest)
      · rcases ih h with h1 | h1
        · exact Or.inl h1
        · exact Or.inr (List.mem_cons_of_mem d h1)

/-- Inserting preserves sortedness by `due`. -/
theorem pairwise_insertByDue (c : Card) (l : List Card)
    (h : l.Pairwise (fun a b => a.due ≤ b.due)) :
    (insertByDue c l).Pairwise (fun a b => a.due ≤ b.due) := by
  induction l with
  | nil => simp [insertByDue]
  | cons d rest ih =>
    rcases List.pairwise_cons.mp h with ⟨hd, hrest⟩
    by_cases hcd : c.due ≤ d.due
    · rw [insertByDue, if_pos hcd]
      refine List.pairwise_cons.mpr ⟨?_, h⟩
      intro x hx
      rcases List.mem_cons.mp hx with rfl | hx
      · exact hcd
      · exact le_trans hcd (hd x hx)
    · rw [insertByDue, if_neg hcd]
      refine List.pairwise_cons.mpr ⟨?_, ih hrest⟩
      intro x hx
      rcases mem_insertByDue c rest x hx with rfl | hx
      · exact le_of_not_le hcd
      · exact hd x hx

/-- The output of `sortByDue` is non-decreasing in `due`. -/
theorem sortByDue_pairwise (l : List Card) :
    (sortByDue l).Pairwise (fun a b => a.due ≤ b.due) := by
  induction l with
  | nil => simp [sortByDue]
  | cons c rest ih => exact pairwise_insertByDue c (sortByDue rest) ih

/-- Filtering an insertion at a fixed `due` value. -/
theorem filter_insertByDue (c : Card) (l : List Card) (d : Int) :
    (insertByDue c l).filter (fun x => x.due == d) =
      if c.due = d then c :: l.filter (fun x => x.due == d)
      else l.filter (fun x => x.due == d) := by
  induction l with
  | nil =>
    by_cases h : c.due = d <;> simp [insertByDue, List.filter_cons, h]
  | cons e rest ih =>
    by_cases hce : c.due ≤ e.due
    · rw [insertByDue, if_pos hce]
      by_cases h : c.due = d <;> simp [List.filter_cons, h]
    · rw [insertByDue, if_neg hce, List.filter_cons, ih]
      by_cases h : c.due = d
      · have hed : ¬ e.due = d := by omega
        simp [h, hed, List.filter_cons]
      · simp [h, List.filter_cons]

/-- `sortByDue` is stable: cards of each fixed `due` value keep their
input order. -/
theorem sortByDue_filter (l : List Card) (d : Int) :
    (sortByDue l).filter (fun x => x.due == d) =
      l.filter (fun x => x.due == d) := by
  induction l with
  | nil => rfl
  | cons c rest ih =>
    rw [sortByDue, filter_insertByDue, List.filter_cons]
    by_cases h : c.due = d
    · rw [if_pos h, ih]
      simp [h]
    · rw [if_neg h, ih]
      simp [h]

/-! ### Index-based filtering, for the update_cards partial-failure policy -/

/-- Shifting the start index of an index-based filter. -/
theorem filterIdxFrom_succ {α : Type} (p : Nat → Bool) (l : List α) :
    ∀ k, filterIdxFrom p (k + 1) l = filterIdxFrom (fun i => p (i + 1)) k l := by
  induction l with
  | nil => intro k; rfl
  | cons a rest ih =>
    intro k
    by_cases h : p (k + 1)
    · rw [filterIdxFrom, if_pos h, ih (k + 1), filterIdxFrom, if_pos h]
    · rw [filterIdxFrom, if_neg h, ih (k + 1), filterIdxFrom, if_neg h]

/-- When every backend result is truthy, the index filters keep all of
(resp. none of) the answers. -/
theorem filterIdx_all_true :
    ∀ (res : List Bool) (ans : List Answer), res.length = ans.length →
      res.all id = true →
      filterIdxFrom (fun i => res.getD i false) 0 ans = ans ∧
      filterIdxFrom (fun i => !(res.getD i false)) 0 ans = [] := by
  intro res
  induction res with
  | nil =>
    intro ans hlen _
    cases ans with
    | nil => exact ⟨rfl, rfl⟩
    | cons a as => simp at hlen
  | cons r rs ih =>
    intro ans hlen hall
    cases ans with
    | nil => simp at hlen
    | cons a as =>
      rw [List.all_cons] at hall
      have hr : r = true := by
        cases r
        · simp at hall
        · rfl
      have hrs : rs.all id = true := by
        cases hra : rs.all id
        · rw [hr, hra] at hall; simp at hall
        · rfl
      have hlen' : rs.length = as.length := by simpa using hlen
      constructor
      · rw [filterIdxFrom, if_pos (by simp [hr]), filterIdxFrom_succ]
        exact congrArg (a :: ·) ((ih as hlen' hrs).1)
      · rw [filterIdxFrom, if_neg (by simp [hr]), filterIdxFrom_succ]
        exact (ih as hlen' hrs).2

/-- When some backend result is falsy, the failed-cards filter is
non-empty. -/
theorem filterIdx_some_false :
    ∀ (res : List Bool) (ans : List Answer), res.length = ans.length →
      res.all id = false →
      filterIdxFrom (fun i => !(res.getD i false)) 0 ans ≠ [] := by
  intro res
  induction res with
  | nil => intro ans _ hall; simp at hall
  | cons r rs ih =>
    intro ans hlen hall
    cases ans with
    | nil => simp at hlen
    | cons a as =>
      cases hr : r
      · rw [filterIdxFrom, if_pos (by simp [hr])]
        simp
      · have hrs : rs.all id = false := by
          rw [List.all_cons, hr] at hall
          simpa using hall
        have hlen' : rs.length = as.length := by simpa using hlen
        rw [filterIdxFrom, if_neg (by simp), filterIdxFrom_succ]
        exact ih as hlen' hrs

/-! ### Unfolding helpers for the dispatcher -/

/-- `callTool` with a present argument bag is the wrapped `handleTool`. -/
theorem callTool_some (be : Backend) (name : Err) (bag : ArgBag) :
    callTool be name (some bag) =
      match handleTool be name bag with
      | .ok r => .ok r
      | .error e => .error (s2l "Error in tool " ++ name ++ s2l ": " ++ e) := rfl

/-- A successful `handleTool` passes through `callTool` unchanged. -/
theorem callTool_of_ok (be : Backend) (name : Err) (bag : ArgBag) (r : ToolResult)
    (h : handleTool be name bag = .ok r) :
    callTool be name (some bag) = .ok r := by
  rw [callTool_some, h]

/-- A failing `handleTool` is re-wrapped by `callTool` with the uniform
template. -/
theorem callTool_of_error (be : Backend) (name : Err) (bag : ArgBag) (e : Err)
    (h : handleTool be name bag = .error e) :
    callTool be name (some bag) =
      .error (s2l "Error in tool " ++ name ++ s2l ": " ++ e) := by
  rw [callTool_some, h]

/-- The `update_cards` branch of the dispatch switch. -/
theorem handleTool_update_cards (be : Backend) (bag : ArgBag) :
    handleTool be (s2l "update_cards") bag =
      match decodeAnswersArg (getArg bag (s2l "answers")) with
      | none => .error (s2l "TypeError: answers")
      | some answers =>
        match be.answerCards answers with
        | .error e => .error e
        | .ok result =>
          if 0 < (filterIdx (fun i => !(result.getD i false)) answers).length then
            .error (s2l "Failed to update cards with IDs: " ++
              joinSep (s2l ", ")
                (((filterIdx (fun i => !(result.getD i false)) answers).map
                  (fun a => a.cardId)).map intStr))
          else
            .ok ⟨s2l "Updated cards " ++ joinSep (s2l ", ")
              (((filterIdx (fun i => result.getD i false) answers).map
                (fun a => a.cardId)).map intStr)⟩ := rfl

/-- The `get_due_cards` branch of the dispatch switch. -/
theorem handleTool_get_due_cards (be : Backend) (bag : ArgBag) :
    handleTool be (s2l "get_due_cards") bag =
      match findCardsAndOrder be (s2l "is:due") with
      | .error e => .error e
      | .ok cards =>
        .ok ⟨jsonCards (sliceTo cards (toNumber (getArg bag (s2l "num"))))⟩ := rfl

/-- The `get_new_cards` branch of the dispatch switch. -/
theorem handleTool_get_new_cards (be : Backend) (bag : ArgBag) :
    handleTool be (s2l "get_new_cards") bag =
      match findCardsAndOrder be (s2l "is:new") with
      | .error e => .error e
      | .ok cards =>
        .ok ⟨jsonCards (sliceTo cards (toNumber (getArg bag (s2l "num"))))⟩ := rfl

/-- The `set_ease_factors` branch of the dispatch switch. -/
theorem handleTool_set_ease_factors (be : Backend) (bag : ArgBag) :
    handleTool be (s2l "set_ease_factors") bag =
      match getArg bag (s2l "cards"), getArg bag (s2l "easeFactors") with
      | some (.jarr cs), some (.jarr es) =>
        if cs.length ≠ es.length then
          .error (s2l "Cards and easeFactors arrays must have the same length")
        else
          match cs.mapM decodeInt, es.mapM decodeInt with
          | some cardIds, some easeFactors =>
            match be.setEaseFactors cardIds easeFactors with
            | .error e => .error e
            | .ok _ =>
              .ok ⟨s2l "Set ease factors for " ++ natStr cs.length ++ s2l " cards"⟩
          | _, _ => .error (s2l "TypeError: set_ease_factors elements")
      | _, _ => .error (s2l "TypeError: set_ease_factors arguments") := rfl

/-! ### The claims -/

/-- C1 (counterexample): the text normalizer is not idempotent.  On
`"a&lt;b&gt;c"` the first pass decodes the entities to `"a<b>c"` (entity
decoding runs after tag stripping), and a second pass then strips the
newly formed `<b>` tag, giving `"a c"`. -/
theorem cleanWithRegex_not_idempotent :
    cleanWithRegex (cleanWithRegex (s2l "a&lt;b&gt;c")) ≠
      cleanWithRegex (s2l "a&lt;b&gt;c") := by decide

/-- C1 (amended): the text normalizer is idempotent on every input that
contains none of the characters `<`, `&`, `[` — i.e. inputs on which the
markup-, entity- and directive-replacement stages cannot fire, leaving
only the (idempotent) re-flow stage. -/
theorem cleanWithRegex_idem_on_plain (s : List Char)
    (h1 : '<' ∉ s) (h2 : '&' ∉ s) (h3 : '[' ∉ s) :
    cleanWithRegex (cleanWithRegex s) = cleanWithRegex s := by
  rw [cleanWithRegex_eq_reflow_of_plain s h1 h2 h3]
  have g1 : '<' ∉ reflow s := fun hc => by
    rcases mem_reflow s '<' hc with h | h
    · exact absurd h (by decide)
    · exact h1 h
  have g2 : '&' ∉ reflow s := fun hc => by
    rcases mem_reflow s '&' hc with h | h
    · exact absurd h (by decide)
    · exact h2 h
  have g3 : '[' ∉ reflow s := fun hc => by
    rcases mem_reflow s '[' hc with h | h
    · exact absurd h (by decide)
    · exact h3 h
  rw [cleanWithRegex_eq_reflow_of_plain _ g1 g2 g3, reflow_idem]

/-- C1 (witness): the amended idempotence at the concrete input
`"  a  b \n c  "`. -/
theorem cleanWithRegex_idem_on_plain_witness :
    cleanWithRegex (cleanWithRegex (s2l "  a  b \n c  ")) =
      cleanWithRegex (s2l "  a  b \n c  ") :=
  cleanWithRegex_idem_on_plain (s2l "  a  b \n c  ")
    (by decide) (by decide) (by decide)

/-- C2: whenever the backend returns a non-empty identifier list and a
detail-record list, `findCardsAndOrder` produces exactly the stable
sort by `due` of the projected records: the output is non-decreasing in
`due`, and for each fixed `due` value the cards appear in the backend's
return order. -/
theorem findCardsAndOrder_sorted_stable (be : Backend) (q : List Char)
    (ids : List Int) (infos : List CardInfo)
    (hids : be.findCards q = .ok ids) (hne : ids ≠ [])
    (hinfos : be.cardsInfo ids = .ok infos) :
    findCardsAndOrder be q = .ok (sortByDue (infos.map projectCard)) ∧
    (sortByDue (infos.map projectCard)).Pairwise (fun a b => a.due ≤ b.due) ∧
    ∀ d : Int,
      (sortByDue (infos.map projectCard)).filter (fun c => c.due == d) =
        (infos.map projectCard).filter (fun c => c.due == d) := by
  refine ⟨?_, sortByDue_pairwise _, fun d => sortByDue_filter _ d⟩
  unfold findCardsAndOrder
  simp only [hids]
  rw [if_neg (by simpa [List.length_eq_zero] using hne)]
  simp only [hinfos]

/-- C2 (witness): the ordering property instantiated on a two-card
backend returning the higher-due card first. -/
theorem findCardsAndOrder_sorted_stable_witness :
    findCardsAndOrder demoBackend (s2l "deck:current") =
      .ok (sortByDue (([⟨2, s2l "q2", s2l "a2", 5⟩,
        ⟨1, s2l "q1", s2l "a1", 3⟩] : List CardInfo).map projectCard)) :=
  (findCardsAndOrder_sorted_stable demoBackend (s2l "deck:current") [1, 2]
    [⟨2, s2l "q2", s2l "a2", 5⟩, ⟨1, s2l "q1", s2l "a1", 3⟩]
    rfl (by decide) rfl).1

/-- C3 (counterexample): not every error of a tool invocation is wrapped
in the `Error in tool {name}: {message}` template — the
missing-argument-bag error is thrown before the `try` block and reaches
the client as `No arguments provided for tool: {name}`, which does not
have the template form. -/
theorem callTool_missing_args_unwrapped :
    callTool stubBackend (s2l "get_due_cards") none =
      .error (s2l "No arguments provided for tool: get_due_cards") ∧
    ¬ ∃ m : Err, s2l "No arguments provided for tool: get_due_cards" =
        s2l "Error in tool get_due_cards: " ++ m := by
  constructor
  · rfl
  · rintro ⟨m, hm⟩
    have h2 := congrArg (List.take (s2l "Error in tool get_due_cards: ").length) hm
    rw [List.take_left] at h2
    exact absurd h2 (by decide)

/-- C3 (amended): every error raised inside the dispatch switch —
length-mismatch validation, unknown-tool, modelled runtime type errors
and backend-call errors — is surfaced wrapped in the single template
`Error in tool {name}: {underlying message}`; only the absent-argument-
bag error, which is thrown before the `try`, bypasses the template. -/
theorem callTool_dispatch_errors_wrapped (be : Backend) (name : Err)
    (bag : ArgBag) (e : Err)
    (h : callTool be name (some bag) = .error e) :
    ∃ m : Err, e = s2l "Error in tool " ++ name ++ s2l ": " ++ m := by
  rw [callTool_some] at h
  cases hh : handleTool be name bag with
  | ok r => rw [hh] at h; simp at h
  | error m =>
    rw [hh] at h
    injection h with h2
    exact ⟨m, h2.symm⟩

/-- C3 (witness): the wrapping applied to the unknown-tool error of a
concrete invocation. -/
theorem callTool_dispatch_errors_wrapped_witness :
    ∃ m : Err,
      s2l "Error in tool bogus_tool: Unknown tool: bogus_tool" =
        s2l "Error in tool " ++ s2l "bogus_tool" ++ s2l ": " ++ m :=
  callTool_dispatch_errors_wrapped stubBackend (s2l "bogus_tool") []
    (s2l "Error in tool bogus_tool: Unknown tool: bogus_tool") rfl

/-- C4: for `update_cards` with a backend result list of one boolean per
answer item, if every item is truthy the call succeeds listing all card
identifiers, and if any item is falsy the whole call fails with the
wrapped error enumerating exactly the identifiers at falsy positions. -/
theorem update_cards_batch_aggregation (be : Backend) (bag : ArgBag)
    (answers : List Answer) (result : List Bool)
    (hdec : decodeAnswersArg (getArg bag (s2l "answers")) = some answers)
    (hbe : be.answerCards answers = .ok result)
    (hlen : result.length = answers.length) :
    (result.all id = true →
      callTool be (s2l "update_cards") (some bag) =
        .ok ⟨s2l "Updated cards " ++
          joinSep (s2l ", ") ((answers.map (fun a => a.cardId)).map intStr)⟩) ∧
    (result.all id = false →
      callTool be (s2l "update_cards") (some bag) =
        .error (s2l "Error in tool " ++ s2l "update_cards" ++ s2l ": " ++
          (s2l "Failed to update cards with IDs: " ++
            joinSep (s2l ", ")
              (((filterIdx (fun i => !(result.getD i false)) answers).map
                (fun a => a.cardId)).map intStr)))) := by
  constructor
  · intro hall
    apply callTool_of_ok
    rw [handleTool_update_cards]
    simp only [hdec, hbe]
    have hfail : filterIdx (fun i => !(result.getD i false)) answers = [] :=
      (filterIdx_all_true result answers hlen hall).2
    have hsucc : filterIdx (fun i => result.getD i false) answers = answers :=
      (filterIdx_all_true result answers hlen hall).1
    rw [hfail, hsucc]
    simp
  · intro hall
    apply callTool_of_error
    rw [handleTool_update_cards]
    simp only [hdec, hbe]
    have hfail : filterIdx (fun i => !(result.getD i false)) answers ≠ [] :=
      filterIdx_some_false result answers hlen hall
    rw [if_pos (List.length_pos.mpr hfail)]

/-- C4 (witness): a three-item batch whose second item fails yields the
wrapped error naming exactly identifier 2. -/
theorem update_cards_batch_aggregation_witness :
    callTool updBackend (s2l "update_cards") (some updBag) =
      .error (s2l "Error in tool " ++ s2l "update_cards" ++ s2l ": " ++
        (s2l "Failed to update cards with IDs: " ++
          joinSep (s2l ", ")
            (((filterIdx (fun i => !(([true, false, true] : List Bool).getD i false))
              [(⟨1, 3⟩ : Answer), ⟨2, 3⟩, ⟨3, 4⟩]).map
              (fun a => a.cardId)).map intStr))) :=
  (update_cards_batch_aggregation updBackend updBag
    [⟨1, 3⟩, ⟨2, 3⟩, ⟨3, 4⟩] [true, false, true]
    rfl rfl (by decide)).2 (by decide)

/-- C5: invoking `set_ease_factors` with `cards` and `easeFactors`
arrays of different lengths fails with the wrapped validation error; the
backend `be` is universally quantified and does not occur in the result,
so no backend call is involved. -/
theorem set_ease_factors_length_mismatch (be : Backend) (bag : ArgBag)
    (cs es : List JVal)
    (hc : getArg bag (s2l "cards") = some (.jarr cs))
    (he : getArg bag (s2l "easeFactors") = some (.jarr es))
    (hne : cs.length ≠ es.length) :
    callTool be (s2l "set_ease_factors") (some bag) =
      .error (s2l "Error in tool " ++ s2l "set_ease_factors" ++ s2l ": " ++
        s2l "Cards and easeFactors arrays must have the same length") := by
  apply callTool_of_error
  rw [handleTool_set_ease_factors]
  simp only [hc, he]
  rw [if_pos hne]

/-- C5 (witness): three card identifiers against two ease factors. -/
theorem set_ease_factors_length_mismatch_witness :
    callTool stubBackend (s2l "set_ease_factors") (some easeBag) =
      .error (s2l "Error in tool " ++ s2l "set_ease_factors" ++ s2l ": " ++
        s2l "Cards and easeFactors arrays must have the same length") :=
  set_ease_factors_length_mismatch stubBackend easeBag
    [.jnum (.int 1), .jnum (.int 2), .jnum (.int 3)]
    [.jnum (.int 250), .jnum (.int 300)] rfl rfl (by decide)

/-- C6: invoking the dispatcher with an absent argument bag fails with
the invalid-request error for every tool name and every backend — the
result is the same uniform error before the name is matched against any
tool and without any backend field being consulted. -/
theorem callTool_absent_args_invalid_request (be : Backend) (name : Err) :
    callTool be name none =
      .error (s2l "No arguments provided for tool: " ++ name) := rfl

/-- C7: when the backend's find-cards operation returns zero
identifiers, `findCardsAndOrder` returns the empty sequence rather than
an error, and the result is the same whatever the `cardsInfo` operation
does — the details fetch is never consulted. -/
theorem findCardsAndOrder_zero_matches (be : Backend) (q : List Char)
    (h : be.findCards q = .ok []) :
    findCardsAndOrder be q = .ok [] ∧
    ∀ ci : List Int → Except Err (List CardInfo),
      findCardsAndOrder { be with cardsInfo := ci } q = .ok [] := by
  constructor
  · unfold findCardsAndOrder
    simp [h]
  · intro ci
    unfold findCardsAndOrder
    simp [h]

/-- C7 (witness): the zero-match behaviour on a concrete backend. -/
theorem findCardsAndOrder_zero_matches_witness :
    findCardsAndOrder stubBackend (s2l "is:due") = .ok [] :=
  (findCardsAndOrder_zero_matches stubBackend (s2l "is:due") rfl).1

/-- C8: the normalizer maps `"A<div>B</div>"` to `"A\nB"` — the div
open tag becomes a newline, the close tag becomes a space that the
per-line trim removes. -/
theorem cleanWithRegex_div_newline_example :
    cleanWithRegex (s2l "A<div>B</div>") = s2l "A\nB" := by decide

/-- C9 (counterexample): the lines-are-nonempty-and-trimmed property
fails on the empty input: the output is `""`, whose split on newline is
the single empty segment. -/
theorem cleanWithRegex_lines_empty_input_cex :
    ¬ (∀ l ∈ splitOnNl (cleanWithRegex (s2l "")), l ≠ [] ∧ trimJS l = l) := by
  decide

/-- C9 (amended): for every input, either the normalizer's output is the
empty string, or splitting the output on newline yields only non-empty
segments each equal to its own trim (hence the output never starts or
ends with a newline and has no empty or untrimmed line). -/
theorem cleanWithRegex_output_lines_trimmed (s : List Char) :
    cleanWithRegex s = [] ∨
    ∀ l ∈ splitOnNl (cleanWithRegex s), l ≠ [] ∧ trimJS l = l := by
  have h : ∃ t, cleanWithRegex s = reflow t := ⟨_, rfl⟩
  obtain ⟨t, ht⟩ := h
  rw [ht]
  exact reflow_lines t

/-- C9 (witness): the line property at the concrete input `" x "`. -/
theorem cleanWithRegex_output_lines_trimmed_witness :
    s2l "x" ≠ [] ∧ trimJS (s2l "x") = s2l "x" := by
  rcases cleanWithRegex_output_lines_trimmed (s2l " x ") with h | h
  · exact absurd h (by decide)
  · exact h (s2l "x") (by decide)

/-- C10: for `get_due_cards` and `get_new_cards`, when `Number()` on the
`num` argument yields NaN (absent argument or non-numeric string), the
invocation does not fail a validation check: it succeeds and returns the
empty JSON array, since `slice(0, NaN)` is empty (provided the backend
query itself succeeds). -/
theorem get_cards_nan_num_empty_json (be : Backend) (bag : ArgBag)
    (cards1 cards2 : List Card)
    (hn : toNumber (getArg bag (s2l "num")) = .nan)
    (h1 : findCardsAndOrder be (s2l "is:due") = .ok cards1)
    (h2 : findCardsAndOrder be (s2l "is:new") = .ok cards2) :
    callTool be (s2l "get_due_cards") (some bag) = .ok ⟨s2l "[]"⟩ ∧
    callTool be (s2l "get_new_cards") (some bag) = .ok ⟨s2l "[]"⟩ := by
  constructor
  · apply callTool_of_ok
    rw [handleTool_get_due_cards]
    simp only [h1, hn]
    rfl
  · apply callTool_of_ok
    rw [handleTool_get_new_cards]
    simp only [h2, hn]
    rfl

/-- C10 (witness): a `num` argument holding the non-numeric string
`"many"` yields the empty JSON array. -/
theorem get_cards_nan_num_empty_json_witness :
    callTool stubBackend (s2l "get_due_cards") (some nanBag) = .ok ⟨s2l "[]"⟩ :=
  (get_cards_nan_num_empty_json stubBackend nanBag [] []
    (by decide) rfl rfl).1
